import Mathlib

/-!
Shallow embedding of the FanetGroundStation core (FANET payload codec, serial
frame codec, radio state machine and broadcast dispatcher) from the C++ source
under src/, together with theorems settling the specification claims.

Bytes are modelled as natural numbers (values kept below 256 at construction
sites via explicit mod), byte strings as lists of naturals, text as lists of
characters, and C machine integers as Int with explicit two's-complement
wrapping (Int.emod by a power of two) where the C code relies on it.
-/

namespace FanetGS

/-! ### Qt string primitives

QByteArray and QString helpers used by the source: trimmed (ASCII whitespace
on both ends), split with Qt.SkipEmptyParts, startsWith, indexOf, and the
numeric conversions toUShort / toInt / number / toHex / fromHex. -/

/-- ASCII whitespace as recognised by QByteArray::trimmed / QString::trimmed
on the ASCII data handled here. -/
def isQtSpace (c : Char) : Bool :=
  c = ' ' || c = '\t' || c = '\n' || c = '\x0b' || c = '\x0c' || c = '\r'

/-- Remove trailing whitespace (the right half of trimmed). -/
def dropTrailingWS (l : List Char) : List Char :=
  (l.reverse.dropWhile isQtSpace).reverse

/-- QByteArray::trimmed / QString::trimmed: strip ASCII whitespace at both
ends. -/
def qtTrim (l : List Char) : List Char :=
  dropTrailingWS (l.dropWhile isQtSpace)

/-- Split a character list at every occurrence of the separator; n separators
give n+1 chunks (QString::split keep-empty behaviour). -/
def splitCh (sep : Char) : List Char → List (List Char)
  | [] => [[]]
  | c :: r =>
    if c = sep then [] :: splitCh sep r
    else
      match splitCh sep r with
      | [] => [[c]]
      | h :: t => (c :: h) :: t

/-- QString::split(sep, Qt::SkipEmptyParts) applied to the trimmed input, as
done by GenericReply / ReceiveEvent body parsing. -/
def skipEmptySplit (sep : Char) (l : List Char) : List (List Char) :=
  (splitCh sep (qtTrim l)).filter (fun t => !t.isEmpty)

/-- QByteArray::startsWith for character lists. -/
def startsWithL : List Char → List Char → Bool
  | [], _ => true
  | _ :: _, [] => false
  | p :: ps, c :: cs => p = c && startsWithL ps cs

/-- QByteArray::indexOf for a single character: index of the first occurrence,
none when absent (source value -1). -/
def idxOf? (c : Char) : List Char → Option Nat
  | [] => none
  | a :: l => if a = c then some 0 else (idxOf? c l).map (· + 1)

/-- Hexadecimal digit value of a character, none for a non-hex character. -/
def hexVal? (c : Char) : Option Nat :=
  if '0' ≤ c ∧ c ≤ '9' then some (c.toNat - '0'.toNat)
  else if 'a' ≤ c ∧ c ≤ 'f' then some (c.toNat - 'a'.toNat + 10)
  else if 'A' ≤ c ∧ c ≤ 'F' then some (c.toNat - 'A'.toNat + 10)
  else none

/-- Decimal digit value of a character. -/
def decVal? (c : Char) : Option Nat :=
  if '0' ≤ c ∧ c ≤ '9' then some (c.toNat - '0'.toNat) else none

/-- Parse an unsigned string of digits under the given digit reader; none on
an empty string or any non-digit character. -/
def parseDigits (digit : Char → Option Nat) (base : Nat) : List Char → Option Nat
  | [] => none
  | l => l.foldl (fun acc c =>
      match acc, digit c with
      | some v, some d => some (v * base + d)
      | _, _ => none) (some 0)

/-- QByteArray::toUShort with base 16: returns the value and a conversion-ok
flag; the value is 0 whenever the conversion fails (empty input, a non-hex
character, or overflow past 0xFFFF). -/
def qToUShortHex (l : List Char) : Nat × Bool :=
  match parseDigits hexVal? 16 l with
  | some v => if v ≤ 0xFFFF then (v, true) else (0, false)
  | none => (0, false)

/-- QString::toInt, base 10: optional sign, decimal digits, surrounding
whitespace ignored; 0 on failure. -/
def qToIntDec (l : List Char) : Int :=
  let t := qtTrim l
  match t with
  | '-' :: rest =>
    match parseDigits decVal? 10 rest with
    | some v => if v ≤ 2 ^ 31 then -(v : Int) else 0
    | none => 0
  | '+' :: rest =>
    match parseDigits decVal? 10 rest with
    | some v => if v < 2 ^ 31 then (v : Int) else 0
    | none => 0
  | _ =>
    match parseDigits decVal? 10 t with
    | some v => if v < 2 ^ 31 then (v : Int) else 0
    | none => 0

/-- QString::toInt with base 16 (used for the payload type in FNF events):
optional sign, hex digits, whitespace ignored; none when conversion fails. -/
def qToIntHex? (l : List Char) : Option Int :=
  let t := qtTrim l
  match t with
  | '-' :: rest => (parseDigits hexVal? 16 rest).bind
      (fun v => if v ≤ 2 ^ 31 then some (-(v : Int)) else none)
  | '+' :: rest => (parseDigits hexVal? 16 rest).bind
      (fun v => if v < 2 ^ 31 then some ((v : Int)) else none)
  | _ => (parseDigits hexVal? 16 t).bind
      (fun v => if v < 2 ^ 31 then some ((v : Int)) else none)

/-- Decimal rendering of a natural number (QString::number). -/
def natToDecL (n : Nat) : List Char :=
  Nat.toDigits 10 n

/-- Decimal rendering of an integer (QString::number on int). -/
def intToDecL (i : Int) : List Char :=
  if i < 0 then '-' :: natToDecL (-i).toNat else natToDecL i.toNat

/-- Lowercase hexadecimal rendering of a natural number (QString::number with
base 16). -/
def natToHexL (n : Nat) : List Char :=
  Nat.toDigits 16 n

/-- Two-digit lowercase hex of a byte (one byte of QByteArray::toHex). -/
def byteToHex2 (b : Nat) : List Char :=
  let dig := fun d => if d < 10 then Char.ofNat ('0'.toNat + d)
                      else Char.ofNat ('a'.toNat + (d - 10))
  [dig (b / 16 % 16), dig (b % 16)]

/-- QByteArray::toHex of a byte string. -/
def bytesToHex (l : List Nat) : List Char :=
  l.flatMap byteToHex2

/-- Pair up a list of hex-digit values into bytes. -/
def hexPairs : List Nat → List Nat
  | a :: b :: r => (a * 16 + b) :: hexPairs r
  | _ => []

/-- QByteArray::fromHex: non-hex characters are skipped; an odd number of
digits is treated as having a leading 0. -/
def fromHexBytes (l : List Char) : List Nat :=
  let ds := l.filterMap hexVal?
  hexPairs (if ds.length % 2 = 1 then 0 :: ds else ds)

/-! ### Rounding

qRound(x) is int(x + 0.5) for x ≥ 0 and int(x - 0.5) for x < 0, i.e. rounding
half away from zero. All qRound call sites in the embedded code divide an
integer by a small positive constant whose quotient is never close enough to
a half-integer for double rounding to differ from exact rational rounding, so
qRound is modelled exactly on rationals p/q. -/

/-- Round p/q (both natural, q > 0) half-up. -/
def qRoundNat (p q : Nat) : Nat :=
  (2 * p + q) / (2 * q)

/-- qRound of the rational p/q for integer p and natural q > 0: half away
from zero. -/
def qRoundInt (p : Int) (q : Nat) : Int :=
  if 0 ≤ p then (qRoundNat p.toNat q : Int) else -(qRoundNat (-p).toNat q : Int)

/-! ### FanetAddress (src/fanet/fanetaddress.cpp) -/

structure FanetAddress where
  manufacturerId : Nat
  deviceId : Nat
deriving DecidableEq

/-- The invalid sentinel 0xFF,0xFFFF (MANUFACUTER_ID_INVALID /
DEVICE_ID_INVALID). -/
def FanetAddress.invalid : FanetAddress := ⟨0xFF, 0xFFFF⟩

/-- Default-constructed FanetAddress(): manufacturer 0, device 0. -/
def FanetAddress.broadcastDefault : FanetAddress := ⟨0, 0⟩

def FanetAddress.isValid (a : FanetAddress) : Bool :=
  a.manufacturerId ≠ 0xFF && a.deviceId ≠ 0xFFFF

def FanetAddress.isBroadcast (a : FanetAddress) : Bool :=
  a.manufacturerId = 0 && a.deviceId = 0

/-- FanetAddress(const QByteArray&): find the separator (the larger of the
first indices of comma and colon, -1 when absent), require 0 < sep < 3 and at
least one character after it, then parse both halves as hex (each field is
assigned the toUShort result even when the conversion fails, in which case
the value is 0); otherwise the fields keep the invalid sentinel. -/
def fanetAddressFromBytes (data : List Char) : FanetAddress :=
  let iComma : Int := match idxOf? ',' data with | some n => n | none => -1
  let iColon : Int := match idxOf? ':' data with | some n => n | none => -1
  let sep := max iComma iColon
  if 0 < sep ∧ sep < 3 ∧ (data.length : Int) > sep + 1 then
    let m := (qToUShortHex (data.take sep.toNat)).1 % 256
    let d := (qToUShortHex (data.drop (sep.toNat + 1))).1
    ⟨m, d⟩
  else
    FanetAddress.invalid

/-- FanetAddress::toHex: 2 hex digits of the manufacturer, the separator,
4 hex digits of the device id. -/
def FanetAddress.toHexL (a : FanetAddress) (sep : Char) : List Char :=
  byteToHex2 (a.manufacturerId % 256) ++ [sep] ++
    byteToHex2 (a.deviceId / 256 % 256) ++ byteToHex2 (a.deviceId % 256)

/-! ### Payload codec (src/fanet/fanetpayload.cpp) -/

inductive PayloadType where
  | PTAck | PTTracking | PTName | PTMessage | PTService | PTLandmarks
  | PTRemoteConfig | PTGroundTracking | PTHWInfoOld | PTThermal | PTHWInfo
  | PTInvalid
deriving DecidableEq

open PayloadType

/-- Numeric value of the PayloadType enum. -/
def payloadTypeCode : PayloadType → Nat
  | PTAck => 0x00
  | PTTracking => 0x01
  | PTName => 0x02
  | PTMessage => 0x03
  | PTService => 0x04
  | PTLandmarks => 0x05
  | PTRemoteConfig => 0x06
  | PTGroundTracking => 0x07
  | PTHWInfoOld => 0x08
  | PTThermal => 0x09
  | PTHWInfo => 0x0A
  | PTInvalid => 0xFF

/-- static_cast of an int to PayloadType: named enumerators map to
themselves; any other value behaves like an unnamed enum value, which every
switch in the source sends to its default branch, exactly as PTInvalid is
sent, so it is modelled as PTInvalid. -/
def payloadTypeOfInt (i : Int) : PayloadType :=
  if i = 0 then PTAck else if i = 1 then PTTracking else if i = 2 then PTName
  else if i = 3 then PTMessage else if i = 4 then PTService
  else if i = 5 then PTLandmarks else if i = 6 then PTRemoteConfig
  else if i = 7 then PTGroundTracking else if i = 8 then PTHWInfoOld
  else if i = 9 then PTThermal else if i = 10 then PTHWInfo else PTInvalid

structure FanetPayload where
  type : PayloadType
  data : List Nat
deriving DecidableEq

/-- ServiceHeader flag constants. -/
def SHExtendedHeader : Nat := 0x01
def SHStateOfCharge : Nat := 0x02
def SHSupportRemoteConfig : Nat := 0x04
def SHPressure : Nat := 0x08
def SHHumidity : Nat := 0x10
def SHWind : Nat := 0x20
def SHTemperature : Nat := 0x40
def SHInternetGateway : Nat := 0x80

/-- QFlags::testFlag for the single-bit flag constants used by the source,
on the byte value (sign extension of the char does not change any single-bit
test). -/
def hasServiceFlag (header flag : Nat) : Bool :=
  header / flag % 2 = 1

/-- The decoder's test `header & ~(SHExtendedHeader | SHInternetGateway |
SHSupportRemoteConfig)` on the sign-extended char read from byte 0: true iff
one of the bits 1, 3, 4, 5, 6 is set, or bit 7 is set (a byte ≥ 0x80 becomes
a negative char whose sign-extension bits survive the int mask ~0x85). -/
def servicePosMandatory (b0 : Nat) : Bool :=
  b0 / 2 % 2 = 1 || b0 / 8 % 16 ≠ 0 || 128 ≤ b0

/-- FanetPayload::fromReceivedData. The Thermal branch of the source logs a
size warning when the payload is shorter than 11 bytes but, unlike the
Tracking branch, returns the PTThermal payload anyway (there is no return of
PTInvalid); this is preserved faithfully. -/
def fromReceivedData (t : PayloadType) (data : List Nat) : FanetPayload :=
  match t with
  | PTGroundTracking =>
    if data.length ≠ 7 then ⟨PTInvalid, data⟩ else ⟨PTGroundTracking, data⟩
  | PTTracking =>
    if data.length < 11 then ⟨PTInvalid, data⟩ else ⟨PTTracking, data⟩
  | PTThermal => ⟨PTThermal, data⟩
  | PTName => ⟨PTName, data⟩
  | PTMessage => ⟨PTMessage, data⟩
  | PTHWInfoOld =>
    if data.length < 3 then ⟨PTInvalid, data⟩ else ⟨PTHWInfoOld, data⟩
  | PTHWInfo =>
    match data with
    | [] => ⟨PTInvalid, []⟩
    | b0 :: _ =>
      if 128 ≤ b0 then ⟨PTInvalid, data⟩
      else
        let expectedSize := 1 + (if b0 / 64 % 2 = 1 then 3 else 0)
            + (if b0 / 32 % 2 = 1 then 3 else 0)
            + (if b0 / 16 % 2 = 1 then 2 else 0)
            + (if b0 / 8 % 2 = 1 then 4 else 0)
            + (if b0 % 2 = 1 then 1 else 0)
        if data.length < expectedSize then ⟨PTInvalid, data⟩
        else ⟨PTHWInfo, data⟩
  | PTService =>
    let expectedSize :=
      match data with
      | [] => 1
      | b0 :: _ =>
        1 + (if servicePosMandatory b0 then 6 else 0)
          + (if hasServiceFlag b0 SHExtendedHeader then 1 else 0)
          + (if hasServiceFlag b0 SHTemperature then 1 else 0)
          + (if hasServiceFlag b0 SHWind then 3 else 0)
          + (if hasServiceFlag b0 SHHumidity then 1 else 0)
          + (if hasServiceFlag b0 SHPressure then 2 else 0)
          + (if hasServiceFlag b0 SHStateOfCharge then 1 else 0)
    if data.length < expectedSize then ⟨PTInvalid, data⟩ else ⟨PTService, data⟩
  | _ => ⟨PTInvalid, data⟩

def FanetPayload.isValid (p : FanetPayload) : Bool :=
  p.type ≠ PTInvalid

/-- Latin-1 byte of a character (toLatin1). -/
def latin1 (c : Char) : Nat := c.toNat % 256

def namePayload (name : List Char) : FanetPayload :=
  ⟨PTName, name.map latin1⟩

def messagePayload (msg : List Char) : FanetPayload :=
  ⟨PTMessage, 0 :: msg.map latin1⟩

/-- A QGeoCoordinate is modelled as none when invalid, or the pair of already
scaled-and-rounded integers qRound(latitude × 93206), qRound(longitude ×
46603) (the floating-point multiply and qRound of the source are exact at
this granularity and are not modelled further). -/
def GeoPos := Option (Int × Int)

/-- The 6 position bytes of servicePayload: 24-bit little-endian
two's-complement latitude and longitude, zeros when the position is
invalid. -/
def serviceCoordBytes (pos : GeoPos) : List Nat :=
  let lat : Int := match pos with | some p => p.1 | none => 0
  let lon : Int := match pos with | some p => p.2 | none => 0
  let ln := (lat.emod 16777216).toNat
  let lo := (lon.emod 16777216).toNat
  [ln % 256, ln / 256 % 256, ln / 65536, lo % 256, lo / 256 % 256, lo / 65536]

/-- The wind / gusts byte of servicePayload:
`wind > 254 ? 0x80 | quint8(qRound(wind / 10.0)) : 0x7F & (wind >> 1)`. -/
def windSpeedByte (v : Int) : Nat :=
  if v > 254 then 128 + ((qRoundInt v 10).emod 256).toNat % 128
  else ((Int.fdiv v 2).emod 128).toNat

/-- FanetPayload::servicePayload: header byte, then unconditionally the 6
position bytes, then the optional temperature, wind triple, humidity and
pressure sections in that order according to the header flags. -/
def servicePayload (header : Nat) (pos : GeoPos)
    (temp dir wind gusts humidity pressure : Int) : FanetPayload :=
  let d0 := header % 256 :: serviceCoordBytes pos
  let d1 := d0 ++ (if hasServiceFlag header SHTemperature
      then [((qRoundInt temp 5).emod 256).toNat] else [])
  let d2 := d1 ++ (if hasServiceFlag header SHWind
      then [((qRoundInt (dir * 256) 360).emod 256).toNat,
            windSpeedByte wind, windSpeedByte gusts] else [])
  let d3 := d2 ++ (if hasServiceFlag header SHHumidity
      then [((qRoundInt humidity 4).emod 256).toNat] else [])
  let d4 := d3 ++ (if hasServiceFlag header SHPressure
      then
        let pres := (((pressure - 430) * 10).emod 65536).toNat
        [pres % 256, pres / 256] else [])
  ⟨PTService, d4⟩

/-- Value of a byte read through a (signed) char. -/
def asSignedChar (b : Nat) : Int :=
  if 128 ≤ b then (b : Int) - 256 else (b : Int)

/-- Header byte of a Service payload (0 for any other type); out-of-range
reads of m_data.at assert in Qt and are modelled as 0. -/
def serviceHeaderOf (p : FanetPayload) : Nat :=
  if p.type = PTService then p.data.getD 0 0 else 0

/-- Offset of the section after the position block: 1 header byte, 1 optional
extended-header byte, 6 position bytes. -/
def serviceBaseOffset (header : Nat) : Nat :=
  if hasServiceFlag header SHExtendedHeader then 8 else 7

/-- FanetPayload::temperature, in °C × 10 (sentinel -2740 without the flag). -/
def FanetPayload.temperature (p : FanetPayload) : Int :=
  let header := serviceHeaderOf p
  if hasServiceFlag header SHTemperature then
    asSignedChar (p.data.getD (serviceBaseOffset header) 0) * 5
  else (-274 : Int) * 10

/-- FanetPayload::dir. The source computes
`qRound((quint8(m_data.at(offset) * 360) / 256.0))`: the char value is
multiplied by 360 first and only then truncated to quint8, so the argument of
qRound is (c × 360 mod 256) / 256 < 1. -/
def FanetPayload.dir (p : FanetPayload) : Int :=
  let header := serviceHeaderOf p
  if hasServiceFlag header SHWind then
    let offset := serviceBaseOffset header
        + (if hasServiceFlag header SHTemperature then 1 else 0)
    let c := asSignedChar (p.data.getD offset 0)
    qRoundInt ((c * 360).emod 256) 256
  else -1

/-- FanetPayload::wind, in km/h × 10: scale 25 when bit 7 is set else 5,
times the low 7 bits. -/
def FanetPayload.wind (p : FanetPayload) : Int :=
  let header := serviceHeaderOf p
  if hasServiceFlag header SHWind then
    let offset := serviceBaseOffset header
        + (if hasServiceFlag header SHTemperature then 1 else 0)
    let b := p.data.getD (offset + 1) 0
    let scale : Int := if 128 ≤ b then 25 else 5
    (b % 128 : Nat) * scale
  else -1

/-- FanetPayload::gusts, same layout as wind one byte further. -/
def FanetPayload.gusts (p : FanetPayload) : Int :=
  let header := serviceHeaderOf p
  if hasServiceFlag header SHWind then
    let offset := serviceBaseOffset header
        + (if hasServiceFlag header SHTemperature then 1 else 0)
    let b := p.data.getD (offset + 2) 0
    let scale : Int := if 128 ≤ b then 25 else 5
    (b % 128 : Nat) * scale
  else -1

/-! ### Replies and messages (src/fanet/genericreply.cpp, transmitreply.cpp,
versionreply.cpp, receiveevent.cpp, fanetprotocolparser.cpp) -/

inductive ReplyType where
  | ReplyOther | ReplyOk | ReplyMsg | ReplyError | ReplyAck | ReplyNack
deriving DecidableEq

open ReplyType

structure GenericReplyData where
  reply : ReplyType
  code : Int
  msg : List Char
deriving DecidableEq

/-- GenericReply::GenericReply body parsing: trim, split on commas skipping
empty parts; the first token selects OK / ACK / NACK (each returning before
any further parsing — the source notes the address parsing for ACK/NACK as a
todo and leaves it to the TransmitReply subclass), or MSG / ERR, which read a
code and message from tokens 2 and 3 when at least three tokens exist. code
starts as -1, msg as the empty string. -/
def parseGenericReply (data : List Char) : GenericReplyData :=
  match skipEmptySplit ',' data with
  | [] => ⟨ReplyOther, -1, []⟩
  | t0 :: rest =>
    if t0 = "OK".toList then ⟨ReplyOk, -1, []⟩
    else if t0 = "ACK".toList then ⟨ReplyAck, -1, []⟩
    else if t0 = "NACK".toList then ⟨ReplyNack, -1, []⟩
    else
      let kind := if t0 = "MSG".toList then ReplyMsg
                  else if t0 = "ERR".toList then ReplyError
                  else ReplyOther
      match rest with
      | r1 :: r2 :: _ => ⟨kind, qToIntDec r1, r2⟩
      | _ => ⟨kind, -1, []⟩

structure TransmitReplyData where
  gr : GenericReplyData
  addr : FanetAddress
deriving DecidableEq

/-- TransmitReply::TransmitReply: the GenericReply parse of the body plus,
for ACK/NACK replies, the FanetAddress parsed from the raw body after its
first comma (data.mid(data.indexOf(separator) + 1); an absent comma gives
index -1, hence mid(0) = the whole body); other replies keep the
default-constructed address. -/
def parseTransmitReply (data : List Char) : TransmitReplyData :=
  let gr := parseGenericReply data
  if gr.reply = ReplyAck ∨ gr.reply = ReplyNack then
    let pos := match idxOf? ',' data with | some n => n + 1 | none => 0
    ⟨gr, fanetAddressFromBytes (data.drop pos)⟩
  else ⟨gr, FanetAddress.broadcastDefault⟩

def transmitReplyIsValid (r : TransmitReplyData) : Bool :=
  match r.gr.reply with
  | ReplyAck => r.addr.isValid && r.gr.reply ≠ ReplyOther
  | ReplyNack => r.addr.isValid && r.gr.reply ≠ ReplyOther
  | k => k ≠ ReplyOther

structure ReceiveEventData where
  addr : FanetAddress
  payload : FanetPayload
  sig : List Char
  broadcast : Bool
deriving DecidableEq

/-- ReceiveEvent::ReceiveEvent body parsing: at least 7 comma-separated
tokens; address from tokens 0-1, broadcast flag, signature, hex payload type
(conversion failure aborts before the payload is decoded), hex payload
data. -/
def parseReceiveEvent (data : List Char) : ReceiveEventData :=
  let tmp := skipEmptySplit ',' data
  if tmp.length < 7 then
    ⟨FanetAddress.broadcastDefault, ⟨PTInvalid, []⟩, [], false⟩
  else
    let addr := fanetAddressFromBytes (tmp.getD 0 [] ++ [','] ++ tmp.getD 1 [])
    let broadcast := qtTrim (tmp.getD 2 []) = ['1']
    let sig := tmp.getD 3 []
    match qToIntHex? (tmp.getD 4 []) with
    | none => ⟨addr, ⟨PTInvalid, []⟩, sig, broadcast⟩
    | some ty =>
      ⟨addr, fromReceivedData (payloadTypeOfInt ty) (fromHexBytes (tmp.getD 6 [])),
        sig, broadcast⟩

inductive FanetMsg where
  | recvEvent (e : ReceiveEventData)
  | fanetReply (r : TransmitReplyData)
  | versionReply (d : List Char)
  | regionReply (g : GenericReplyData)
deriving DecidableEq

/-- FanetProtocolParser::parseMessage: bodies of more than 3 bytes are
trimmed and dispatched on their 3-character identifier (FNF, FNR, DGV, DGR,
in that order); anything else yields no message. The VersionReply constructor
trims its stored data again. -/
def parseMessage (data : List Char) : Option FanetMsg :=
  if 3 < data.length then
    let buf := qtTrim data
    if startsWithL ("FNF".toList) buf then
      some (.recvEvent (parseReceiveEvent (buf.drop 3)))
    else if startsWithL ("FNR".toList) buf then
      some (.fanetReply (parseTransmitReply (buf.drop 3)))
    else if startsWithL ("DGV".toList) buf then
      some (.versionReply (qtTrim (buf.drop 3)))
    else if startsWithL ("DGR".toList) buf then
      some (.regionReply (parseGenericReply (buf.drop 3)))
    else none
  else none

/-- VersionReply::version: drop the literal "build-" from the stored trimmed
data, or the empty string when the data does not start with it. -/
def versionOf (d : List Char) : List Char :=
  if startsWithL ("build-".toList) d then d.drop 6 else []

/-- isValid of each parsed message (each message type is non-FMTInvalid, so
only the subclass conditions remain). -/
def msgIsValid : FanetMsg → Bool
  | .recvEvent e => e.addr.isValid && e.payload.isValid
  | .fanetReply r => transmitReplyIsValid r
  | .versionReply d => startsWithL ("build-".toList) d
  | .regionReply g => g.reply ≠ ReplyOther

/-! ### Streaming framer (FanetProtocolParser::next)

next() consumes bytes one at a time: a start delimiter resets the buffer
(warning about the discarded partial unless it is empty or starts with the
boot chatter CCCCCC), an end delimiter hands the buffer to parseMessage, any
other byte is appended. The driver (FanetRadio::onReadyRead) keeps pulling
messages while bytes are available; runFramer composes these calls over a
whole input, returning the dispatched bodies and the discarded partial
buffers that were warned about. -/

def cccPrefix (l : List Char) : Bool :=
  startsWithL ("CCCCCC".toList) l

def runFramer (buf : List Char) : List Char → List (List Char) × List (List Char)
  | [] => ([], [])
  | c :: r =>
    if c = '#' then
      let rest := runFramer [] r
      if !buf.isEmpty && !cccPrefix buf then (rest.1, buf :: rest.2) else rest
    else if c = '\n' then
      let rest := runFramer [] r
      (buf :: rest.1, rest.2)
    else runFramer (buf ++ [c]) r

/-- Suffix of a character list after its last '#' (the whole list when there
is none). -/
def afterLastHash (l : List Char) : List Char :=
  (l.reverse.takeWhile (fun c => c ≠ '#')).reverse

/-- Specification of the dispatched bodies: one body per newline-terminated
chunk of the stream, namely the bytes of the chunk after its last '#'. -/
def framerBodiesSpec (s : List Char) : List (List Char) :=
  ((splitCh '\n' s).dropLast).map afterLastHash

/-- The warned-about discards within one newline-delimited chunk: each
segment that precedes a '#' and is neither empty nor CCCCCC-prefixed. -/
def chunkWarns (chunk : List Char) : List (List Char) :=
  ((splitCh '#' chunk).dropLast).filter (fun b => !b.isEmpty && !cccPrefix b)

/-- Specification of the warned-about discards over the whole stream. -/
def framerWarnSpec (s : List Char) : List (List Char) :=
  (splitCh '\n' s).flatMap chunkWarns

/-! ### Radio state machine (src/fanet/fanetradio.cpp)

The serial device is modelled as always open with every write succeeding in
full (the write-error and open-error paths of the source are not exercised by
the claims); GPIO and logging are side effects outside the model. The timer
field holds the armed single-shot duration in milliseconds. -/

inductive RadioState where
  | RadioDisabled | RadioResetting | RadioInitializing | RadioReady
  | RadioError | RadioDevNotFound | RadioDevOpenFail | RadioInitTimeout
  | RadioComTimeout | RadioWrongFw
deriving DecidableEq

open RadioState

structure RadioConfig where
  frequency : Int
  txPower : Int
deriving DecidableEq

structure RadioSim where
  config : RadioConfig
  state : RadioState
  trace : List RadioState
  writes : List (List Char)
  timer : Option Nat
deriving DecidableEq

/-- FanetRadio::setState: on a change, record the emitted radioStateChanged
signal in the trace and update the state. -/
def setState (sim : RadioSim) (s : RadioState) : RadioSim :=
  if s ≠ sim.state then { sim with state := s, trace := sim.trace ++ [s] }
  else sim

inductive FanetFreq where
  | Freq868MHz | Freq915Mhz | FreqInvalid
deriving DecidableEq

inductive FanetCommand where
  | versionCmd
  | regionCmd (txPower : Int) (freq : FanetFreq)
  | enableCmd (enable : Bool)
  | transmitCmd (addr : FanetAddress) (payload : FanetPayload)
deriving DecidableEq

/-- RegionCommand constructor: clamp the tx power into [2, 20] dBm. -/
def regionCommandMake (txPower : Int) (freq : FanetFreq) : FanetCommand :=
  .regionCmd (if txPower < 2 then 2 else if txPower > 20 then 20 else txPower) freq

/-- serialize() of each command. -/
def serializeCommand : FanetCommand → List Char
  | .versionCmd => "DGV".toList
  | .regionCmd p f =>
    match f with
    | .Freq868MHz => "DGL ".toList ++ "868".toList ++ [','] ++ intToDecL p
    | .Freq915Mhz => "DGL ".toList ++ "915".toList ++ [','] ++ intToDecL p
    | .FreqInvalid => []
  | .enableCmd b => "DGP ".toList ++ [if b then '1' else '0']
  | .transmitCmd addr payload =>
    if payload.type = PTInvalid then []
    else
      "FNT ".toList ++ natToDecL (payloadTypeCode payload.type) ++ [','] ++
        addr.toHexL ',' ++ [','] ++
        (if addr.isBroadcast then "0,0".toList else "1,1".toList) ++ [','] ++
        natToHexL payload.data.length ++ [','] ++ bytesToHex payload.data

/-- isValid of each command (AbstractFanetMessage::isValid plus the
RegionCommand frequency check); all four types are commands. -/
def commandIsValid : FanetCommand → Bool
  | .regionCmd _ f => f ≠ FanetFreq.FreqInvalid
  | _ => true

/-- FanetRadio::sendMessage on an open device with full writes: a valid
command is framed as '#' body '\n' and written. -/
def sendMessageSim (sim : RadioSim) (cmd : FanetCommand) : RadioSim × Bool :=
  if commandIsValid cmd then
    ({ sim with writes := sim.writes ++ ['#' :: serializeCommand cmd ++ ['\n']] }, true)
  else (sim, false)

/-- FanetRadio::init on a closed device that opens successfully: state
Resetting, reset pulse timer armed for 250 ms. -/
def radioInit (sim : RadioSim) : RadioSim :=
  let sim1 := setState sim RadioResetting
  { sim1 with timer := some 250 }

/-- FanetRadio::onTimeout. -/
def radioOnTimeout (sim : RadioSim) : RadioSim :=
  match sim.state with
  | RadioResetting =>
    let sim1 := setState sim RadioInitializing
    { sim1 with timer := some 10000 }
  | RadioInitializing => setState sim RadioInitTimeout
  | RadioReady => setState sim RadioComTimeout
  | _ => sim

/-- FanetRadio::onRadioInitialized: only a FanetReply of sub-kind Msg with
code 1 (the initialization banner) advances; it arms the 3 s timer and sends
the Version command. -/
def onRadioInitialized (sim : RadioSim) (r : TransmitReplyData) : RadioSim :=
  if r.gr.reply = ReplyMsg ∧ r.gr.code = 1 then
    let sim1 := { sim with timer := some 3000 }
    (sendMessageSim sim1 .versionCmd).1
  else sim

/-- FanetRadio::handleVersionReply: stop the timer; an empty or wrong
firmware id goes to WrongFw, otherwise send the Region command derived from
the configuration and arm 3 s. -/
def handleVersionReply (sim : RadioSim) (d : List Char) : RadioSim :=
  let sim1 := { sim with timer := none }
  let ver := versionOf d
  if ver.isEmpty then setState sim1 RadioWrongFw
  else if ver ≠ "202201131742".toList then setState sim1 RadioWrongFw
  else
    let freq := if sim1.config.frequency = 915 then FanetFreq.Freq915Mhz
                else FanetFreq.Freq868MHz
    let sim2 := (sendMessageSim sim1 (regionCommandMake sim1.config.txPower freq)).1
    { sim2 with timer := some 3000 }

/-- FanetRadio::handleRegionReply: stop the timer; a missing or non-OK reply
goes to Error; an OK reply while Initializing sends Enable(true), arms 3 s
and goes Ready; an OK reply in any other state does nothing further. -/
def handleRegionReply (sim : RadioSim) (reply : Option GenericReplyData) : RadioSim :=
  let sim1 := { sim with timer := none }
  match reply with
  | none => setState sim1 RadioError
  | some gr =>
    if gr.reply ≠ ReplyOk then setState sim1 RadioError
    else if sim1.state = RadioInitializing then
      let sim2 := (sendMessageSim sim1 (.enableCmd true)).1
      let sim3 := { sim2 with timer := some 3000 }
      setState sim3 RadioReady
    else sim1

/-- FanetRadio::handleFanetReply: an Error reply degrades to Error; every
other sub-kind is informational. -/
def handleFanetReply (sim : RadioSim) (r : TransmitReplyData) : RadioSim :=
  match r.gr.reply with
  | ReplyError => setState sim RadioError
  | _ => sim

/-- FanetRadio::handleMessage dispatch (a received-packet event only emits
the messageReceived signal and touches neither state nor serial line). -/
def handleMessage (sim : RadioSim) (m : FanetMsg) : RadioSim :=
  match m with
  | .recvEvent _ => sim
  | .fanetReply r =>
    if sim.state = RadioInitializing then onRadioInitialized sim r
    else handleFanetReply sim r
  | .regionReply g => handleRegionReply sim (some g)
  | .versionReply d => handleVersionReply sim d

/-- FanetRadio::sendData: an invalid address or a state other than Ready is
rejected with false before anything is written; otherwise the Transmit
command is framed and written. -/
def sendData (sim : RadioSim) (addr : FanetAddress) (p : FanetPayload) :
    Bool × RadioSim :=
  if !addr.isValid then (false, sim)
  else if sim.state ≠ RadioReady then (false, sim)
  else
    let (sim1, ok) := sendMessageSim sim (.transmitCmd addr p)
    (ok, sim1)

/-- The event-loop composition of FanetProtocolParser::next and
FanetRadio::onReadyRead over a byte stream: '#' clears the frame buffer,
'\n' parses the buffer and hands valid messages to handleMessage, any other
byte is buffered. -/
def runRadioBytes (sim : RadioSim) (buf : List Char) : List Char → RadioSim
  | [] => sim
  | c :: r =>
    if c = '#' then runRadioBytes sim [] r
    else if c = '\n' then
      let sim2 :=
        match parseMessage buf with
        | some m => if msgIsValid m then handleMessage sim m else sim
        | none => sim
      runRadioBytes sim2 [] r
    else runRadioBytes sim (buf ++ [c]) r

/-! ### Dispatcher (src/fanetmessagedispatcher.cpp)

Timestamps are UTC instants modelled as integers (seconds); an unset
QDateTime is none. FanetRadio::supportsAddressChange is the source constant
false. Each sendData call of the dispatcher is recorded as an action. -/

structure FanetCfg where
  inactivityTimeout : Int
  txIntervalNames : Int
  txIntervalWeather : Int
  weatherDataMaxAge : Int
deriving DecidableEq

structure StationSt where
  lastUpdate : Option Int
  stationName : List Char
  availTemperature : Bool
  temperature : Int
  windDirection : Int
  windSpeed : Int
  windGusts : Int
  position : Option (Int × Int)
deriving DecidableEq

structure DispState where
  lastNodeSeen : Option Int
  lastWeatherUpdate : Option Int
  lastNameUpdate : Option Int
  timerActive : Bool
deriving DecidableEq

inductive DispAction where
  | transmit (addr : FanetAddress) (p : FanetPayload)
deriving DecidableEq

def supportsAddressChange : Bool := false

/-- An invalid (unset) QDateTime compares false under > against any valid
instant; station.lastUpdate > maxAge. -/
def newerThan (t : Option Int) (bound : Int) : Bool :=
  match t with
  | some v => bound < v
  | none => false

/-- FanetMessageDispatcher::sendWeatherData: stamp lastWeatherUpdate, then
for each station with fresh data compose a Service payload (Wind always,
Temperature when available) and transmit to the broadcast address; without
address-change support the loop stops after the first station. -/
def weatherActs (cfg : FanetCfg) (now : Int) : List StationSt → List DispAction
  | [] => []
  | s :: rest =>
    let acts :=
      if newerThan s.lastUpdate (now - cfg.weatherDataMaxAge) then
        let header := SHWind + (if s.availTemperature then SHTemperature else 0)
        [DispAction.transmit FanetAddress.broadcastDefault
          (servicePayload header s.position s.temperature s.windDirection
            s.windSpeed s.windGusts 0 0)]
      else []
    acts ++ (if supportsAddressChange then weatherActs cfg now rest else [])

def sendWeatherData (cfg : FanetCfg) (stations : List StationSt) (now : Int)
    (st : DispState) : DispState × List DispAction :=
  ({ st with lastWeatherUpdate := some now }, weatherActs cfg now stations)

/-- FanetMessageDispatcher::sendStationNames: stamp lastNameUpdate, then for
each station with a non-empty name transmit a Name payload; same single
station cutoff. -/
def nameActs : List StationSt → List DispAction
  | [] => []
  | s :: rest =>
    let acts :=
      if !s.stationName.isEmpty then
        [DispAction.transmit FanetAddress.broadcastDefault (namePayload s.stationName)]
      else []
    acts ++ (if supportsAddressChange then nameActs rest else [])

def sendStationNames (stations : List StationSt) (now : Int) (st : DispState) :
    DispState × List DispAction :=
  ({ st with lastNameUpdate := some now }, nameActs stations)

/-- The inactivity test of FanetMessageDispatcher::onTimeout:
inactivityTimeout > 0 and (lastNodeSeen unset or now - lastNodeSeen >
inactivityTimeout). -/
def inactiveNow (cfg : FanetCfg) (st : DispState) (now : Int) : Bool :=
  decide (0 < cfg.inactivityTimeout) &&
    (match st.lastNodeSeen with
     | none => true
     | some v => decide (cfg.inactivityTimeout < now - v))

/-- Cadence test shared by the name and weather branches: interval > 0 and
(stamp unset or now - stamp > interval). -/
def cadenceDue (interval : Int) (stamp : Option Int) (now : Int) : Bool :=
  decide (0 < interval) &&
    (match stamp with
     | none => true
     | some v => decide (interval < now - v))

/-- FanetMessageDispatcher::onTimeout: the inactivity check disables updates
and returns before any broadcast; otherwise names are sent when due, then
weather when due. -/
def dispOnTimeout (cfg : FanetCfg) (stations : List StationSt) (now : Int)
    (st : DispState) : DispState × List DispAction :=
  if inactiveNow cfg st now then
    ({ st with timerActive := false }, [])
  else
    let (st1, a1) :=
      if cadenceDue cfg.txIntervalNames st.lastNameUpdate now then
        sendStationNames stations now st
      else (st, [])
    let (st2, a2) :=
      if cadenceDue cfg.txIntervalWeather st1.lastWeatherUpdate now then
        sendWeatherData cfg stations now st1
      else (st1, [])
    (st2, a1 ++ a2)

/-- A run of dispatcher ticks at the given instants, accumulating every
sendData call. -/
def runTicks (cfg : FanetCfg) (stations : List StationSt) :
    DispState → List Int → DispState × List DispAction
  | st, [] => (st, [])
  | st, t :: ts =>
    let (st1, a1) := dispOnTimeout cfg stations t st
    let (st2, a2) := runTicks cfg stations st1 ts
    (st2, a1 ++ a2)

/-! ### Helper lemmas -/

theorem splitCh_ne_nil (sep : Char) (l : List Char) : splitCh sep l ≠ [] := by
  cases l with
  | nil => simp [splitCh]
  | cons c r =>
    simp only [splitCh]
    split
    · simp
    · cases h : splitCh sep r <;> simp [h]

theorem splitCh_not_mem {sep : Char} {l : List Char} (h : sep ∉ l) :
    splitCh sep l = [l] := by
  induction l with
  | nil => rfl
  | cons c r ih =>
    have hc : ¬ c = sep := fun e => h (e ▸ List.mem_cons_self c r)
    have hr : sep ∉ r := fun m => h (List.mem_cons_of_mem _ m)
    simp [splitCh, hc, ih hr]

theorem splitCh_append_sep {sep : Char} {a : List Char} (b : List Char)
    (h : sep ∉ a) : splitCh sep (a ++ sep :: b) = a :: splitCh sep b := by
  induction a with
  | nil => simp [splitCh]
  | cons c r ih =>
    have hc : ¬ c = sep := fun e => h (e ▸ List.mem_cons_self c r)
    have hr : sep ∉ r := fun m => h (List.mem_cons_of_mem _ m)
    rw [List.cons_append]
    simp only [splitCh, if_neg hc]
    rw [ih hr]

theorem takeWhile_append_stop {p : Char → Bool} {x : Char} (hx : p x = false)
    (a b : List Char) : (a ++ x :: b).takeWhile p = a.takeWhile p := by
  induction a with
  | nil => simp [List.takeWhile_cons, hx]
  | cons c r ih =>
    by_cases h : p c <;> simp [List.takeWhile_cons, h, ih]

theorem takeWhile_all {p : Char → Bool} {l : List Char}
    (h : ∀ x ∈ l, p x = true) : l.takeWhile p = l := by
  induction l with
  | nil => rfl
  | cons c r ih =>
    simp [List.takeWhile_cons, h c (List.mem_cons_self c r),
      ih (fun x hx => h x (List.mem_cons_of_mem _ hx))]

theorem afterLastHash_append (a b : List Char) :
    afterLastHash (a ++ '#' :: b) = afterLastHash b := by
  unfold afterLastHash
  rw [List.reverse_append, List.reverse_cons, List.append_assoc,
    List.singleton_append, takeWhile_append_stop (by decide)]

theorem afterLastHash_not_mem {l : List Char} (h : '#' ∉ l) :
    afterLastHash l = l := by
  unfold afterLastHash
  rw [takeWhile_all, List.reverse_reverse]
  intro x hx
  have : x ∈ l := List.mem_reverse.mp hx
  simp only [decide_eq_true_eq]
  exact fun e => h (e ▸ this)

theorem chunkWarns_of_not_mem {l : List Char} (h : '#' ∉ l) :
    chunkWarns l = [] := by
  unfold chunkWarns
  rw [splitCh_not_mem h]
  rfl

/-- A run of the framer with a pending '#'-free buffer, expressed through the
newline chunks of the remaining stream: the first chunk is extended by the
buffer, bodies are the post-last-'#' suffixes of all chunks but the last,
warnings collect per chunk. -/
theorem runFramer_general : ∀ (s buf : List Char), '#' ∉ buf →
    runFramer buf s =
      ((((buf ++ (splitCh '\n' s).headD []) :: (splitCh '\n' s).tail).dropLast).map
          afterLastHash,
        chunkWarns (buf ++ (splitCh '\n' s).headD []) ++
          ((splitCh '\n' s).tail).flatMap chunkWarns) := by
  intro s
  induction s with
  | nil =>
    intro buf hb
    simp [runFramer, splitCh, chunkWarns_of_not_mem hb]
  | cons c r ih =>
    intro buf hb
    obtain ⟨h2, t2, heq⟩ : ∃ h2 t2, splitCh '\n' r = h2 :: t2 := by
      cases hx : splitCh '\n' r with
      | nil => exact absurd hx (splitCh_ne_nil _ _)
      | cons a b => exact ⟨a, b, rfl⟩
    by_cases hc : c = '#'
    · subst hc
      have ihr := ih [] (by simp)
      rw [heq] at ihr
      simp only [List.headD, List.tail, List.nil_append] at ihr
      have hsp : splitCh '\n' ('#' :: r) = ('#' :: h2) :: t2 := by
        simp [splitCh, heq]
      have hcw : chunkWarns (buf ++ '#' :: h2) =
          (if !buf.isEmpty && !cccPrefix buf then [buf] else []) ++ chunkWarns h2 := by
        unfold chunkWarns
        rw [splitCh_append_sep h2 hb]
        obtain ⟨x, xs, hx⟩ : ∃ x xs, splitCh '#' h2 = x :: xs := by
          cases hxx : splitCh '#' h2 with
          | nil => exact absurd hxx (splitCh_ne_nil _ _)
          | cons a b => exact ⟨a, b, rfl⟩
        rw [hx, List.dropLast_cons₂, List.filter_cons]
        by_cases hw : (!buf.isEmpty && !cccPrefix buf) = true
        · rw [if_pos hw, if_pos hw]
          rfl
        · rw [if_neg hw, if_neg hw]
          rfl
      have hb2 : afterLastHash (buf ++ '#' :: h2) = afterLastHash h2 :=
        afterLastHash_append buf h2
      rw [hsp]
      simp only [List.headD, List.tail]
      simp only [runFramer, if_pos rfl, ihr]
      by_cases hw : (!buf.isEmpty && !cccPrefix buf) = true
      · rw [if_pos hw, hcw, if_pos hw]
        cases t2 with
        | nil => simp
        | cons u us => simp [List.dropLast_cons₂, hb2]
      · rw [if_neg hw, hcw, if_neg hw]
        cases t2 with
        | nil => simp
        | cons u us => simp [List.dropLast_cons₂, hb2]
    · by_cases hn : c = '\n'
      · subst hn
        have ihr := ih [] (by simp)
        rw [heq] at ihr
        simp only [List.headD, List.tail, List.nil_append] at ihr
        have hsp : splitCh '\n' ('\n' :: r) = [] :: h2 :: t2 := by
          simp [splitCh, heq]
        rw [hsp]
        simp only [List.headD, List.tail, List.append_nil]
        simp only [runFramer, if_neg hc, if_pos rfl, ihr]
        rw [List.dropLast_cons₂, chunkWarns_of_not_mem hb]
        simp [afterLastHash_not_mem hb]
      · have hbc : '#' ∉ buf ++ [c] := by
          intro hmem
          rcases List.mem_append.mp hmem with h | h
          · exact hb h
          · simp at h
            exact hc h.symm
        have ihr := ih (buf ++ [c]) hbc
        rw [heq] at ihr
        simp only [List.headD, List.tail] at ihr
        have hsp : splitCh '\n' (c :: r) = (c :: h2) :: t2 := by
          simp [splitCh, heq, hn]
        rw [hsp]
        simp only [runFramer, if_neg hc, if_neg hn, ihr]
        simp only [List.headD, List.tail, List.append_assoc, List.singleton_append]

theorem lengthDropWhileLe (p : Char → Bool) (l : List Char) :
    (l.dropWhile p).length ≤ l.length :=
  (List.dropWhile_sublist p).length_le

theorem dropWhile_idem {p : Char → Bool} (l : List Char) :
    (l.dropWhile p).dropWhile p = l.dropWhile p := by
  induction l with
  | nil => rfl
  | cons c r ih =>
    by_cases h : p c <;> simp [List.dropWhile_cons, h, ih]

theorem dropWhile_append_fix {p : Char → Bool} {x y : List Char}
    (h : (x ++ y).dropWhile p = x ++ y) : x.dropWhile p = x := by
  cases x with
  | nil => rfl
  | cons c r =>
    by_cases hc : p c
    · exfalso
      rw [List.cons_append, List.dropWhile_cons, if_pos hc] at h
      have hlen := congrArg List.length h
      have hle := lengthDropWhileLe p (r ++ y)
      simp [List.length_append] at hlen hle
      omega
    · simp [List.dropWhile_cons, hc]

theorem dropTrailingWS_idem (l : List Char) :
    dropTrailingWS (dropTrailingWS l) = dropTrailingWS l := by
  unfold dropTrailingWS
  rw [List.reverse_reverse, dropWhile_idem]

theorem qtTrim_no_trailing (l : List Char) :
    dropTrailingWS (qtTrim l) = qtTrim l := by
  unfold qtTrim
  rw [dropTrailingWS_idem]

theorem dropTrailingWS_append_fix {a b : List Char}
    (h : dropTrailingWS (a ++ b) = a ++ b) : dropTrailingWS b = b := by
  unfold dropTrailingWS at h ⊢
  have h2 : (b.reverse ++ a.reverse).dropWhile isQtSpace = b.reverse ++ a.reverse := by
    have := congrArg List.reverse h
    rwa [List.reverse_reverse, List.reverse_append] at this
  rw [dropWhile_append_fix h2, List.reverse_reverse]

theorem qtTrim_length_le (l : List Char) : (qtTrim l).length ≤ l.length := by
  unfold qtTrim dropTrailingWS
  calc ((l.dropWhile isQtSpace).reverse.dropWhile isQtSpace).reverse.length
      = ((l.dropWhile isQtSpace).reverse.dropWhile isQtSpace).length := by
        rw [List.length_reverse]
    _ ≤ (l.dropWhile isQtSpace).reverse.length := lengthDropWhileLe _ _
    _ = (l.dropWhile isQtSpace).length := by rw [List.length_reverse]
    _ ≤ l.length := lengthDropWhileLe _ _

/-- A frame whose trimmed form is FNR ACK,<rest> parses to a FanetReply of
sub-kind Ack whose address is parsed from <rest>. -/
theorem ackBodyParsed (frame r : List Char)
    (h : qtTrim frame = "FNR ACK,".toList ++ r) :
    parseMessage frame =
      some (.fanetReply ⟨⟨ReplyAck, -1, []⟩, fanetAddressFromBytes r⟩) := by
  have hlen : 3 < frame.length := by
    have h1 := qtTrim_length_le frame
    rw [h] at h1
    simp [List.length_append] at h1
    omega
  have hnt : dropTrailingWS ("FNR ACK,".toList ++ r) = "FNR ACK,".toList ++ r := by
    have := qtTrim_no_trailing frame
    rw [h] at this
    exact this
  have hnt2 : dropTrailingWS (('A' :: 'C' :: 'K' :: ',' :: r : List Char)) =
      'A' :: 'C' :: 'K' :: ',' :: r :=
    dropTrailingWS_append_fix (a := ['F', 'N', 'R', ' ']) hnt
  have hqt : qtTrim ((' ' : Char) :: 'A' :: 'C' :: 'K' :: ',' :: r) =
      'A' :: 'C' :: 'K' :: ',' :: r := by
    unfold qtTrim
    rw [show ((' ' : Char) :: 'A' :: 'C' :: 'K' :: ',' :: r).dropWhile isQtSpace =
        'A' :: 'C' :: 'K' :: ',' :: r from rfl]
    exact hnt2
  have hsplit : skipEmptySplit ',' ((' ' : Char) :: 'A' :: 'C' :: 'K' :: ',' :: r) =
      ['A', 'C', 'K'] :: ((splitCh ',' r).filter fun t => !t.isEmpty) := by
    unfold skipEmptySplit
    rw [hqt]
    rw [show ('A' :: 'C' :: 'K' :: ',' :: r : List Char) = ['A', 'C', 'K'] ++ ',' :: r
      from rfl]
    rw [splitCh_append_sep r (by decide)]
    rfl
  have hgr : parseGenericReply ((' ' : Char) :: 'A' :: 'C' :: 'K' :: ',' :: r) =
      ⟨ReplyAck, -1, []⟩ := by
    unfold parseGenericReply
    rw [hsplit]
    rfl
  have htr : parseTransmitReply ((' ' : Char) :: 'A' :: 'C' :: 'K' :: ',' :: r) =
      ⟨⟨ReplyAck, -1, []⟩, fanetAddressFromBytes r⟩ := by
    unfold parseTransmitReply
    rw [hgr]
    rfl
  unfold parseMessage
  rw [if_pos hlen, h]
  exact congrArg (fun t => some (FanetMsg.fanetReply t)) htr

/-- A frame whose trimmed form is FNR NACK,<rest> parses to a FanetReply of
sub-kind Nack whose address is parsed from <rest>. -/
theorem nackBodyParsed (frame r : List Char)
    (h : qtTrim frame = "FNR NACK,".toList ++ r) :
    parseMessage frame =
      some (.fanetReply ⟨⟨ReplyNack, -1, []⟩, fanetAddressFromBytes r⟩) := by
  have hlen : 3 < frame.length := by
    have h1 := qtTrim_length_le frame
    rw [h] at h1
    simp [List.length_append] at h1
    omega
  have hnt : dropTrailingWS ("FNR NACK,".toList ++ r) = "FNR NACK,".toList ++ r := by
    have := qtTrim_no_trailing frame
    rw [h] at this
    exact this
  have hnt2 : dropTrailingWS (('N' :: 'A' :: 'C' :: 'K' :: ',' :: r : List Char)) =
      'N' :: 'A' :: 'C' :: 'K' :: ',' :: r :=
    dropTrailingWS_append_fix (a := ['F', 'N', 'R', ' ']) hnt
  have hqt : qtTrim ((' ' : Char) :: 'N' :: 'A' :: 'C' :: 'K' :: ',' :: r) =
      'N' :: 'A' :: 'C' :: 'K' :: ',' :: r := by
    unfold qtTrim
    rw [show ((' ' : Char) :: 'N' :: 'A' :: 'C' :: 'K' :: ',' :: r).dropWhile isQtSpace =
        'N' :: 'A' :: 'C' :: 'K' :: ',' :: r from rfl]
    exact hnt2
  have hsplit : skipEmptySplit ',' ((' ' : Char) :: 'N' :: 'A' :: 'C' :: 'K' :: ',' :: r) =
      ['N', 'A', 'C', 'K'] :: ((splitCh ',' r).filter fun t => !t.isEmpty) := by
    unfold skipEmptySplit
    rw [hqt]
    rw [show ('N' :: 'A' :: 'C' :: 'K' :: ',' :: r : List Char) =
        ['N', 'A', 'C', 'K'] ++ ',' :: r from rfl]
    rw [splitCh_append_sep r (by decide)]
    rfl
  have hgr : parseGenericReply ((' ' : Char) :: 'N' :: 'A' :: 'C' :: 'K' :: ',' :: r) =
      ⟨ReplyNack, -1, []⟩ := by
    unfold parseGenericReply
    rw [hsplit]
    rfl
  have htr : parseTransmitReply ((' ' : Char) :: 'N' :: 'A' :: 'C' :: 'K' :: ',' :: r) =
      ⟨⟨ReplyNack, -1, []⟩, fanetAddressFromBytes r⟩ := by
    unfold parseTransmitReply
    rw [hgr]
    rfl
  unfold parseMessage
  rw [if_pos hlen, h]
  exact congrArg (fun t => some (FanetMsg.fanetReply t)) htr

theorem setState_state (sim : RadioSim) (s : RadioState) :
    (setState sim s).state = s := by
  unfold setState
  by_cases h : s = sim.state
  · rw [if_neg (by simp [h])]
    exact h.symm
  · rw [if_pos h]

/-! ### Claim theorems -/

/-- C1: starting from Disabled with a configuration of 868 MHz at 14 dBm,
init() followed by the 250 ms reset timer expiry and the byte stream
"#CCCCC\n#FNR MSG,1,initialized\n#DGV build-202201131742\n#DGR OK\n#FNR OK\n"
drives the radio FSM through exactly the emitted state sequence Resetting,
Initializing, Ready, and writes exactly the frames "#DGV\n", "#DGL 868,14\n",
"#DGP 1\n" in that order to the serial line. -/
theorem c1_bringup_sequence :
    runRadioBytes (radioOnTimeout (radioInit ⟨⟨868, 14⟩, RadioDisabled, [], [], none⟩)) []
        ("#CCCCC\n#FNR MSG,1,initialized\n#DGV build-202201131742\n#DGR OK\n#FNR OK\n".toList)
      = ⟨⟨868, 14⟩, RadioReady, [RadioResetting, RadioInitializing, RadioReady],
          ["#DGV\n".toList, "#DGL 868,14\n".toList, "#DGP 1\n".toList], some 3000⟩ := by
  decide

/-- C2: evaluation of the wind codec at the failing inputs of the claim. The
encoder chooses the ×5 scale already for wind = 300 (> 254, although the
claim allows it only above 1270), and decoding the encoding of 100 yields
250 instead of a value within the claimed quantization of 100 (the encoder
writes 0.2 km/h units while the decoder reads 0.5 km/h units, so the
round-trip multiplies by 2.5). -/
theorem c2_wind_unit_mismatch :
    (servicePayload 0x20 none 0 0 100 100 0 0).wind = 250 ∧
    (servicePayload 0x20 none 0 0 300 300 0 0).wind = 750 ∧
    (servicePayload 0x20 none 0 0 300 300 0 0).data.getD 8 0 = 158 := by
  decide

/-- C3: evaluation of the direction codec at the failing input of the claim:
encoding direction 90 and decoding gives 0, not a value within 1 degree of
90 (the decoder truncates the char to quint8 after multiplying by 360, so
its result is always 0 or 1). -/
theorem c3_dir_decode_broken :
    (servicePayload 0x20 none 0 90 0 0 0 0).dir = 0 := by
  decide

/-- C4, counterexample: for flags = InternetGateway only (0x80) the claim
says the encoded payload is the header byte alone, but the encoder emits the
6-byte position block unconditionally: the payload is 7 bytes. -/
theorem c4_position_omission_cex :
    (servicePayload 0x80 none 0 0 0 0 0 0).data = [128, 0, 0, 0, 0, 0, 0] := by
  decide

/-- C4, amended: encode_service emits the 6-byte position block immediately
after the header byte for every flags value (with six zero bytes when the
position is invalid), never emits an extended-header byte, and appends only
the temperature / wind / humidity / pressure sections selected by the
flags. -/
theorem c4_position_always_emitted (header : Nat) (pos : GeoPos)
    (temp dir wind gusts humidity pressure : Int) :
    ((servicePayload header pos temp dir wind gusts humidity pressure).data.take 7
      = header % 256 :: serviceCoordBytes pos) ∧
    (pos = none →
      (servicePayload header pos temp dir wind gusts humidity pressure).data.take 7
        = [header % 256, 0, 0, 0, 0, 0, 0]) ∧
    (servicePayload header pos temp dir wind gusts humidity pressure).data.length
      = 7 + (if hasServiceFlag header SHTemperature then 1 else 0)
          + (if hasServiceFlag header SHWind then 3 else 0)
          + (if hasServiceFlag header SHHumidity then 1 else 0)
          + (if hasServiceFlag header SHPressure then 2 else 0) := by
  have hc : (serviceCoordBytes pos).length = 6 := by
    cases pos <;> rfl
  have htake : (servicePayload header pos temp dir wind gusts humidity pressure).data.take 7
      = header % 256 :: serviceCoordBytes pos := by
    unfold servicePayload
    simp only [List.append_assoc]
    exact List.take_left' (by simp [hc])
  refine ⟨htake, fun hpos => ?_, ?_⟩
  · rw [htake, hpos]
    rfl
  · unfold servicePayload
    simp only [List.length_append, List.length_cons, hc]
    split_ifs <;> simp

/-- C4, witness: at flags 0x85 (InternetGateway, SupportRemoteConfig and
ExtendedHeader only) with an invalid position, the payload still starts with
the header byte and six zero position bytes and is exactly 7 bytes long. -/
theorem c4_position_always_emitted_witness :
    (servicePayload 0x85 none 0 0 0 0 0 0).data.take 7 = [133, 0, 0, 0, 0, 0, 0] ∧
    (servicePayload 0x85 none 0 0 0 0 0 0).data.length = 7 := by
  obtain ⟨h1, h2, h3⟩ := c4_position_always_emitted 0x85 none 0 0 0 0 0 0
  refine ⟨h2 rfl, ?_⟩
  rw [h3]
  decide

/-- C5: the code accepts an under-length Thermal payload. Decoding the empty
byte string as Thermal (claimed to fail for every length below 11) returns a
payload that still has type Thermal and is considered valid; only a warning
is logged. -/
theorem c5_thermal_short_accepted :
    fromReceivedData PTThermal [] = ⟨PTThermal, []⟩ ∧
    (fromReceivedData PTThermal []).isValid = true := by
  decide

/-- C6: sendData returns false and leaves the whole radio unchanged (no
bytes written, state untouched) whenever the state is not Ready, and in any
state whenever the address is invalid. -/
theorem c6_senddata_rejects (sim : RadioSim) (addr : FanetAddress) (p : FanetPayload)
    (h : addr.isValid = false ∨ sim.state ≠ RadioReady) :
    sendData sim addr p = (false, sim) := by
  unfold sendData
  rcases h with h | h
  · rw [h]
    rfl
  · rcases hv : addr.isValid
    · rfl
    · simp [h]

/-- C6, witness: a disabled radio rejects a broadcast send, and a ready
radio rejects a send to the invalid address, both leaving the radio
unchanged. -/
theorem c6_senddata_rejects_witness :
    sendData ⟨⟨868, 14⟩, RadioDisabled, [], [], none⟩ ⟨0, 0⟩ ⟨PTName, []⟩
        = (false, ⟨⟨868, 14⟩, RadioDisabled, [], [], none⟩) ∧
    sendData ⟨⟨868, 14⟩, RadioReady, [], [], none⟩ FanetAddress.invalid ⟨PTName, []⟩
        = (false, ⟨⟨868, 14⟩, RadioReady, [], [], none⟩) :=
  ⟨c6_senddata_rejects _ _ _ (Or.inr (by decide)),
    c6_senddata_rejects _ _ _ (Or.inl (by decide))⟩

/-- C7: with a positive inactivity timeout and lastNodeSeen never set, any
sequence of dispatcher ticks performs no transmit call at all: every tick
takes the inactivity branch, disables updates and returns before the name or
weather broadcasts. -/
theorem c7_inactivity_gates_transmit (cfg : FanetCfg) (stations : List StationSt)
    (st : DispState) (ticks : List Int) (h1 : 0 < cfg.inactivityTimeout)
    (h2 : st.lastNodeSeen = none) :
    (runTicks cfg stations st ticks).2 = [] := by
  induction ticks generalizing st with
  | nil => rfl
  | cons t ts ih =>
    have hact : inactiveNow cfg st t = true := by
      unfold inactiveNow
      rw [h2]
      simp [h1]
    simp only [runTicks, dispOnTimeout, hact, if_pos]
    rw [ih _ (show ({ st with timerActive := false } : DispState).lastNodeSeen = none from h2)]
    rfl

/-- C7, witness: the configuration of the spec scenario (600 s inactivity
timeout, 40 s weather cadence), one fresh station, and four ticks produce no
transmission. -/
theorem c7_inactivity_gates_transmit_witness :
    (runTicks ⟨600, 40, 40, 3600⟩ [⟨some 0, ['a'], true, 215, 90, 80, 150, none⟩]
        ⟨none, none, none, true⟩ [1, 2, 3, 100]).2 = [] :=
  c7_inactivity_gates_transmit _ _ _ _ (by decide) rfl

/-- C8, counterexample: the stream "FNR OK\n" contains no '#', yet the
framer dispatches the body "FNR OK", which even parses to a message; a body
is therefore not dispatched only when opened by a '#'. -/
theorem c8_unopened_body_cex :
    (runFramer [] ("FNR OK\n".toList)).1 = ["FNR OK".toList] ∧
    ('#' ∉ "FNR OK\n".toList) ∧
    (parseMessage ("FNR OK".toList)).isSome = true := by
  decide

/-- C8, amended: for every input stream the framer dispatches exactly one
body per newline-terminated chunk, namely the bytes of the chunk after its
last '#' (bytes from the stream start or after a '\n' are dispatched even
without an opening '#'), and warns exactly about the nonempty partial
buffers discarded at a '#' that do not start with the chatter CCCCCC. -/
theorem c8_framer_characterization (s : List Char) :
    runFramer [] s = (framerBodiesSpec s, framerWarnSpec s) := by
  have h := runFramer_general s [] (by simp)
  obtain ⟨h1, t1, heq⟩ : ∃ h1 t1, splitCh '\n' s = h1 :: t1 := by
    cases hx : splitCh '\n' s with
    | nil => exact absurd hx (splitCh_ne_nil _ _)
    | cons a b => exact ⟨a, b, rfl⟩
  rw [h]
  unfold framerBodiesSpec framerWarnSpec
  rw [heq]
  simp

/-- C9: a reply frame whose trimmed body is FNR ACK,<rest> (respectively
FNR NACK,<rest>) parses to a FanetReply of sub-kind Ack (respectively Nack)
carrying the FanetAddress parsed from the tokens after the first, i.e. from
<rest>. -/
theorem c9_ack_nack_address :
    (∀ frame r : List Char, qtTrim frame = "FNR ACK,".toList ++ r →
      parseMessage frame =
        some (.fanetReply ⟨⟨ReplyAck, -1, []⟩, fanetAddressFromBytes r⟩)) ∧
    (∀ frame r : List Char, qtTrim frame = "FNR NACK,".toList ++ r →
      parseMessage frame =
        some (.fanetReply ⟨⟨ReplyNack, -1, []⟩, fanetAddressFromBytes r⟩)) :=
  ⟨ackBodyParsed, nackBodyParsed⟩

/-- C9, witness: concrete ACK and NACK reply frames parse to the Ack / Nack
sub-kinds carrying the address parsed from the remaining tokens. -/
theorem c9_ack_nack_address_witness :
    parseMessage ("FNR ACK,11,45AA".toList) =
      some (.fanetReply ⟨⟨ReplyAck, -1, []⟩, fanetAddressFromBytes ("11,45AA".toList)⟩) ∧
    parseMessage ("FNR NACK,B,32E".toList) =
      some (.fanetReply ⟨⟨ReplyNack, -1, []⟩, fanetAddressFromBytes ("B,32E".toList)⟩) :=
  ⟨c9_ack_nack_address.1 _ _ (by decide), c9_ack_nack_address.2 _ _ (by decide)⟩

/-- C10: handling a RegionReply of sub-kind Ok while the state is not
Initializing leaves the state unchanged and writes nothing (no Enable
command), whereas an absent or non-Ok RegionReply sets the state to Error
from every state. -/
theorem c10_region_reply_transitions (sim : RadioSim) (reply : Option GenericReplyData) :
    (∀ gr, reply = some gr → gr.reply = ReplyOk → sim.state ≠ RadioInitializing →
      (handleRegionReply sim reply).state = sim.state ∧
      (handleRegionReply sim reply).writes = sim.writes) ∧
    ((reply = none ∨ ∃ gr, reply = some gr ∧ gr.reply ≠ ReplyOk) →
      (handleRegionReply sim reply).state = RadioError) := by
  constructor
  · rintro gr rfl hok hst
    unfold handleRegionReply
    simp [hok, hst]
  · rintro (rfl | ⟨gr, rfl, hne⟩)
    · simp [handleRegionReply, setState_state]
    · simp [handleRegionReply, hne, setState_state]

/-- C10, witness: in the Ready state an Ok RegionReply changes neither state
nor writes, and an Error RegionReply drives the state to Error. -/
theorem c10_region_reply_transitions_witness :
    ((handleRegionReply ⟨⟨868, 14⟩, RadioReady, [], [], some 3000⟩
        (some ⟨ReplyOk, -1, []⟩)).state = RadioReady ∧
      (handleRegionReply ⟨⟨868, 14⟩, RadioReady, [], [], some 3000⟩
        (some ⟨ReplyOk, -1, []⟩)).writes = []) ∧
    (handleRegionReply ⟨⟨868, 14⟩, RadioReady, [], [], some 3000⟩
        (some ⟨ReplyError, 1, ['x']⟩)).state = RadioError :=
  ⟨(c10_region_reply_transitions ⟨⟨868, 14⟩, RadioReady, [], [], some 3000⟩
        (some ⟨ReplyOk, -1, []⟩)).1 ⟨ReplyOk, -1, []⟩ rfl rfl (by decide),
    (c10_region_reply_transitions ⟨⟨868, 14⟩, RadioReady, [], [], some 3000⟩
        (some ⟨ReplyError, 1, ['x']⟩)).2
      (Or.inr ⟨⟨ReplyError, 1, ['x']⟩, rfl, by decide⟩)⟩

end FanetGS
